import Mathlib

/-!
Verification of the real-time chat application connection, room and
invitation engine.  The definitions below are a shallow embedding of the
JavaScript source: the Mongo collections become lists of records inside a
`Store`, each HTTP route handler or socket event handler becomes a pure
function from a store (plus request data) to an outcome and an updated
store, and timestamps are natural numbers (milliseconds).  Strings from
the source are modelled as lists of characters so that trimming and
case-insensitive comparison are fully executable.
-/

namespace ChatSpec

/-- JavaScript strings, modelled as lists of characters. -/
abbrev JStr := List Char

/-- The default room name used throughout the server. -/
def gen : JStr := "general".toList

/-- `String.prototype.trim`: drop whitespace from both ends. -/
def jsTrim (s : JStr) : JStr :=
  ((s.dropWhile Char.isWhitespace).reverse.dropWhile Char.isWhitespace).reverse

/-- Lower-casing of a string, used to model a case-insensitive regex match. -/
def lowerStr (s : JStr) : JStr := s.map Char.toLower

/-- The `status` enum of the Invitation schema. -/
inductive InvStatus
  | pending
  | accepted
  | declined
  | expired
deriving DecidableEq, Repr

/-- The `type` enum of the Invitation schema. -/
inductive InvType
  | direct
  | codeKind
  | email
deriving DecidableEq, Repr

/-- One document of the `Invitation` collection. -/
structure Invitation where
  invId : Nat
  roomId : Nat
  invitedBy : Nat
  invitedUser : Option Nat
  invitedEmail : Option JStr
  inviteCode : JStr
  itype : InvType
  status : InvStatus
  expiresAt : Nat
  usageLimit : Nat
  usedCount : Nat
  message : JStr
deriving DecidableEq, Repr

/-- One document of the `ChatRoom` collection. -/
structure ChatRoom where
  roomId : Nat
  name : JStr
  description : JStr
  isPrivate : Bool
  createdBy : Nat
  members : List Nat
  isActive : Bool
  lastActivity : Nat
deriving DecidableEq, Repr

/-- One document of the `User` collection (the fields the core mutates). -/
structure UserRec where
  userId : Nat
  username : JStr
  room : JStr
  socketId : Option Nat
  isOnline : Bool
  lastSeen : Nat
  joinedAt : Nat
deriving DecidableEq, Repr

/-- One document of the `Message` collection. -/
structure MessageRec where
  username : JStr
  message : JStr
  timestamp : Nat
  room : JStr
deriving DecidableEq, Repr

/-- The durable store: the four Mongo collections plus a fresh-id counter
standing in for ObjectId generation. -/
structure Store where
  users : List UserRec
  rooms : List ChatRoom
  messages : List MessageRec
  invitations : List Invitation
  nextId : Nat
deriving DecidableEq, Repr

/-- The outcome of `POST /api/invitations/:inviteCode/accept`: either an
HTTP error status with its message, or the id and name of the joined room. -/
inductive AcceptOutcome
  | err (status : Nat) (msg : String)
  | ok (roomId : Nat) (name : JStr)
deriving DecidableEq, Repr

/-- Whether an accept outcome is a success. -/
def acceptOk : AcceptOutcome → Bool
  | AcceptOutcome.ok _ _ => true
  | AcceptOutcome.err _ _ => false

/-- The `findOne` filter of the accept route: same code, still `pending`,
and `expiresAt` strictly in the future. -/
def redeemable (code : JStr) (now : Nat) (i : Invitation) : Bool :=
  decide (i.inviteCode = code) && decide (i.status = InvStatus.pending) &&
    decide (now < i.expiresAt)

/-- Mongo lookup of a room document by id (the populate step on roomId). -/
def roomWithId (rid : Nat) (r : ChatRoom) : Bool := decide (r.roomId = rid)

/-- The redeemed invitation document after `invitation.save()`:
`usedCount` incremented, status flipped to `accepted` when the limit is
reached. -/
def redeemedInv (inv : Invitation) : Invitation :=
  { inv with
    usedCount := inv.usedCount + 1,
    status := if inv.usageLimit ≤ inv.usedCount + 1 then InvStatus.accepted
              else inv.status }

/-- The three writes of a successful redemption: the room gains the
redeemer and a fresh `lastActivity`, the invitation is saved as
`redeemedInv`, and the user record switches to the room. -/
def acceptApply (st : Store) (inv : Invitation) (room : ChatRoom) (uid now : Nat) :
    Store :=
  { st with
    rooms := st.rooms.map (fun r =>
      if r.roomId = room.roomId then
        { room with members := room.members ++ [uid], lastActivity := now }
      else r),
    invitations := st.invitations.map
      (fun i => if i.invId = inv.invId then redeemedInv inv else i),
    users := st.users.map
      (fun u => if u.userId = uid then { u with room := room.name } else u) }

/-- The body of the accept route once `findOne` has produced an invitation:
target check, usage-limit check, membership check, then the three writes
(room members + lastActivity, invitation usedCount/status, user.room). -/
def acceptFound (st : Store) (inv : Invitation) (uid now : Nat) :
    AcceptOutcome × Store :=
  if (match inv.invitedUser with
      | some t => decide (t ≠ uid)
      | none => false) then
    (AcceptOutcome.err 403 "This invitation is not for you", st)
  else if inv.usageLimit ≤ inv.usedCount then
    (AcceptOutcome.err 410 "Invitation has reached its usage limit", st)
  else
    match st.rooms.find? (roomWithId inv.roomId) with
    | none => (AcceptOutcome.err 500 "Failed to accept invitation", st)
    | some room =>
      if uid ∈ room.members then
        (AcceptOutcome.err 409 "You are already a member of this room", st)
      else
        (AcceptOutcome.ok room.roomId room.name, acceptApply st inv room uid now)

/-- `POST /api/invitations/:inviteCode/accept`.  A code that is unknown,
no longer `pending`, or past its expiry is answered with the generic
404 response. -/
def acceptInvitation (st : Store) (code : JStr) (uid now : Nat) :
    AcceptOutcome × Store :=
  match st.invitations.find? (redeemable code now) with
  | none => (AcceptOutcome.err 404 "Invalid or expired invitation", st)
  | some inv => acceptFound st inv uid now

/-- Request body of `POST /api/invitations/create`; the invite code the
server would draw from `crypto.randomBytes` is passed in explicitly. -/
structure CreateInvReq where
  roomId : Nat
  itype : InvType
  invitedUsername : Option JStr
  invitedEmail : Option JStr
  message : JStr
  expiresInHours : Int
  usageLimit : Int
  code : JStr
deriving DecidableEq, Repr

/-- Outcome of `POST /api/invitations/create`. -/
inductive CreateInvOutcome
  | err (status : Nat) (msg : String)
  | created (inv : Invitation)
deriving DecidableEq, Repr

/-- The usage limit actually stored by a successful create, if any. -/
def outcomeUsageLimit : CreateInvOutcome → Option Nat
  | CreateInvOutcome.created i => some i.usageLimit
  | CreateInvOutcome.err _ _ => none

/-- Filter of the duplicate-pending-invite check for direct invitations. -/
def pendingDirectDup (rid target now : Nat) (i : Invitation) : Bool :=
  decide (i.roomId = rid) && decide (i.invitedUser = some target) &&
    decide (i.status = InvStatus.pending) && decide (now < i.expiresAt)

/-- The `findOne({_id, isActive:true})` room lookup of the create route. -/
def activeRoomWithId (rid : Nat) (r : ChatRoom) : Bool :=
  decide (r.roomId = rid) && r.isActive

/-- The invitation document built by the create route: `usageLimit` is
clamped with `Math.max(1, Math.min(_, 100))`, the message is trimmed
and cut to 200 characters, the expiry is `now` plus the requested hours,
and the fresh-id counter provides the `_id`. -/
def newInvitation (st : Store) (uid : Nat) (req : CreateInvReq) (now : Nat)
    (invitedUser : Option Nat) : Invitation :=
  { invId := st.nextId, roomId := req.roomId, invitedBy := uid,
    invitedUser := invitedUser,
    invitedEmail := if req.itype = InvType.email then req.invitedEmail else none,
    inviteCode := req.code, itype := req.itype,
    status := InvStatus.pending,
    expiresAt := now + 3600000 * req.expiresInHours.toNat,
    usageLimit := (max 1 (min req.usageLimit 100)).toNat,
    usedCount := 0, message := (jsTrim req.message).take 200 }

/-- `invitation.save()`: fails with a generic 500 if the unique index on
`inviteCode` is violated, otherwise appends the document. -/
def saveInvitation (st : Store) (inv : Invitation) : CreateInvOutcome × Store :=
  if st.invitations.any (fun i => decide (i.inviteCode = inv.inviteCode)) then
    (CreateInvOutcome.err 500 "Failed to create invitation", st)
  else
    (CreateInvOutcome.created inv,
     { st with invitations := st.invitations ++ [inv], nextId := st.nextId + 1 })

/-- `POST /api/invitations/create`: room and membership checks, the
range check on `expiresInHours`, the direct-invitation checks, then the
insert.  `usageLimit` is clamped with `Math.max(1, Math.min(_, 100))`
while out-of-range `expiresInHours` is rejected with a 400.  The save
fails on a duplicate invite code (unique index).  This is the body of
the create route after the room lookup succeeded. -/
def createInvitationChecked (st : Store) (uid : Nat) (req : CreateInvReq) (now : Nat)
    (room : ChatRoom) : CreateInvOutcome × Store :=
  if uid ∉ room.members then
    (CreateInvOutcome.err 403 "You must be a member of the room to invite others", st)
  else if req.expiresInHours < 1 ∨ 168 < req.expiresInHours then
    (CreateInvOutcome.err 400 "Expiration must be between 1 hour and 1 week", st)
  else
    match req.itype, req.invitedUsername with
    | InvType.direct, some uname =>
      match st.users.find? (fun u => decide (u.username = uname)) with
      | none => (CreateInvOutcome.err 404 "User not found", st)
      | some target =>
        if target.userId ∈ room.members then
          (CreateInvOutcome.err 409 "User is already a member of this room", st)
        else if st.invitations.any (pendingDirectDup req.roomId target.userId now) then
          (CreateInvOutcome.err 409 "User already has a pending invitation to this room", st)
        else
          saveInvitation st (newInvitation st uid req now (some target.userId))
    | _, _ =>
      saveInvitation st (newInvitation st uid req now none)

/-- `POST /api/invitations/create`: look up the active room, then run
the checks and the insert. -/
def createInvitation (st : Store) (uid : Nat) (req : CreateInvReq) (now : Nat) :
    CreateInvOutcome × Store :=
  match st.rooms.find? (activeRoomWithId req.roomId) with
  | none => (CreateInvOutcome.err 404 "Room not found", st)
  | some room => createInvitationChecked st uid req now room

/-- Outcome of `DELETE /api/invitations/:invitationId`. -/
inductive RevokeOutcome
  | err (status : Nat) (msg : String)
  | ok
deriving DecidableEq, Repr

/-- `DELETE /api/invitations/:invitationId`: only the issuer may revoke;
revocation sets the status to `expired`. -/
def revokeInvitation (st : Store) (invitationId uid : Nat) :
    RevokeOutcome × Store :=
  match st.invitations.find? (fun i => decide (i.invId = invitationId)) with
  | none => (RevokeOutcome.err 404 "Invitation not found", st)
  | some inv =>
    if inv.invitedBy ≠ uid then
      (RevokeOutcome.err 403 "You can only revoke your own invitations", st)
    else
      (RevokeOutcome.ok,
       { st with
         invitations := st.invitations.map
           (fun i => if i.invId = inv.invId then { i with status := InvStatus.expired } else i) })

/-- The per-connection state the server keeps on the socket object:
`socket.user` (identity) and `socket.room` (current room, if any). -/
structure Session where
  userId : Nat
  username : JStr
  room : Option JStr
deriving DecidableEq, Repr

/-- An entry of the `userList` payload: the fields picked out by
the select of username and joinedAt. -/
abbrev UEntry := JStr × Nat

/-- The events a socket handler can emit.  `userLeft`, `userJoined` and
`userListOthers` go to the other members of the room (`socket.to`),
`userListAll` and `newMessage` to the whole room (`io.to`), the rest to
the acting socket itself. -/
inductive Event
  | userLeft (room : JStr) (username : JStr)
  | userJoined (room : JStr) (username : JStr)
  | userListOthers (room : JStr) (entries : List UEntry)
  | userListAll (room : JStr) (entries : List UEntry)
  | previousMessages (entries : List MessageRec)
  | roomChanged (room : JStr)
  | newMessage (room : JStr) (username : JStr) (text : JStr) (ts : Nat)
  | errorEv (msg : String)
deriving DecidableEq, Repr

/-- Descending timestamp order used for the descending-timestamp sort. -/
def tsGe (a b : MessageRec) : Prop := b.timestamp ≤ a.timestamp

instance : DecidableRel tsGe := fun a b => Nat.decLe b.timestamp a.timestamp

instance : IsTotal MessageRec tsGe :=
  ⟨fun a b => Nat.le_total b.timestamp a.timestamp⟩

instance : IsTrans MessageRec tsGe :=
  ⟨fun _ _ _ hab hbc => Nat.le_trans hbc hab⟩

/-- The history query of the join handler:
find messages of the room, sort by timestamp descending, limit 20, then reverse. -/
def recentMessages (st : Store) (room : JStr) : List MessageRec :=
  (((st.messages.filter (fun m => decide (m.room = room))).insertionSort tsGe).take 20).reverse

/-- The member-list query on users of the room, selecting username and joinedAt. -/
def userEntries (st : Store) (room : JStr) : List UEntry :=
  (st.users.filter (fun u => decide (u.room = room))).map (fun u => (u.username, u.joinedAt))

/-- The single database write of the join handler: `findByIdAndUpdate`
setting socketId, room, isOnline and lastSeen on the joining user. -/
def joinUpdate (st : Store) (uid sid : Nat) (room : JStr) (now : Nat) : Store :=
  { st with
    users := st.users.map (fun u =>
      if u.userId = uid then
        { u with socketId := some sid, room := room, isOnline := true, lastSeen := now }
      else u) }

/-- The join-event handler.  `dbOk` tells whether the
`findByIdAndUpdate` call succeeds; on failure the catch block emits a
generic error and neither the store nor `socket.room` changes.  The
leave notifications for the previous room are computed (and emitted)
before the database write, so they use the pre-update store. -/
def handleJoin (st : Store) (sess : Session) (sid : Nat) (roomReq : Option JStr)
    (dbOk : Bool) (now : Nat) : List Event × Store × Session :=
  let room := roomReq.getD gen
  let prevEvents :=
    match sess.room with
    | some p =>
      if p ≠ room then
        [Event.userLeft p sess.username, Event.userListOthers p (userEntries st p)]
      else []
    | none => []
  if dbOk then
    let st2 := joinUpdate st sess.userId sid room now
    (prevEvents ++
      [Event.userJoined room sess.username,
       Event.previousMessages (recentMessages st2 room),
       Event.userListAll room (userEntries st2 room),
       Event.roomChanged room],
     st2, { sess with room := some room })
  else
    (prevEvents ++ [Event.errorEv "Failed to join chat"], st, sess)

/-- The database states an observer can read during and after a join:
the state before the single `findByIdAndUpdate` write and the state the
handler leaves behind (on the error path the two coincide). -/
def joinStates (st : Store) (sess : Session) (sid : Nat) (roomReq : Option JStr)
    (dbOk : Bool) (now : Nat) : List Store :=
  [st, (handleJoin st sess sid roomReq dbOk now).2.1]

/-- A member-list snapshot of room `room` shows user `uid`. -/
def inRoomList (st : Store) (room : JStr) (uid : Nat) : Prop :=
  ∃ u, u ∈ st.users ∧ u.userId = uid ∧ u.room = room

instance (st : Store) (room : JStr) (uid : Nat) : Decidable (inRoomList st room uid) := by
  unfold inRoomList
  exact List.decidableBEx _ st.users

/-- The message-validity test of sendMessage-event:
`!message || !message.trim()`. -/
def badText : Option JStr → Bool
  | none => true
  | some t => decide (jsTrim t = [])

/-- The sendMessage-event handler: validate, persist the trimmed
text, then broadcast it to the room.  `dbOk` tells whether the save
succeeds; on failure the catch block emits a generic error. -/
def handleSendMessage (st : Store) (sess : Session) (data : Option JStr)
    (now : Nat) (dbOk : Bool) : List Event × Store :=
  let room := sess.room.getD gen
  if badText data then
    ([Event.errorEv "Message content is required"], st)
  else
    let text := jsTrim (data.getD [])
    if dbOk then
      ([Event.newMessage room sess.username text now],
       { st with messages := st.messages ++
          [{ username := sess.username, message := text, timestamp := now, room := room }] })
    else
      ([Event.errorEv "Failed to send message"], st)

/-- The database write of the disconnect handler: mark the user
offline, stamp `lastSeen`, clear the socket id. -/
def disconnectUpdate (st : Store) (uid now : Nat) : Store :=
  { st with
    users := st.users.map (fun u =>
      if u.userId = uid then
        { u with isOnline := false, lastSeen := now, socketId := none }
      else u) }

/-- The disconnect-event handler.  It runs only when
`socket.user && socket.room` holds, marks the user offline, and notifies
the room; exceptions are swallowed by the catch block (no error event).
`socket.room` is never cleared, so the returned session equals the input
session. -/
def handleDisconnect (st : Store) (sess : Session) (dbOk : Bool) (now : Nat) :
    List Event × Store × Session :=
  match sess.room with
  | none => ([], st, sess)
  | some r =>
    if dbOk then
      ([Event.userLeft r sess.username,
        Event.userListOthers r (userEntries (disconnectUpdate st sess.userId now) r)],
       disconnectUpdate st sess.userId now, sess)
    else ([], st, sess)

/-- Character class of the room-name regex `[a-zA-Z0-9\s\-_]`. -/
def validRoomChar (c : Char) : Bool :=
  c.isAlpha || c.isDigit || c.isWhitespace || decide (c = '-') || decide (c = '_')

/-- `validateRoomName` from the room routes; `none` means valid. -/
def validateRoomName (name : Option JStr) : Option String :=
  match name with
  | none => some "Room name is required"
  | some n =>
    if n = [] then some "Room name is required"
    else if n.length < 3 ∨ 30 < n.length then
      some "Room name must be between 3 and 30 characters"
    else if n.all validRoomChar then none
    else some "Room name can only contain letters, numbers, spaces, hyphens, and underscores"

/-- `validateRoomDescription` from the room routes; `none` means valid. -/
def validateRoomDescription (descr : Option JStr) : Option String :=
  match descr with
  | none => none
  | some d =>
    if 200 < d.length then some "Room description must be less than 200 characters"
    else none

/-- Outcome of `POST /api/rooms`. -/
inductive CreateRoomOutcome
  | err (status : Nat) (msg : String)
  | created (room : ChatRoom)
deriving DecidableEq, Repr

/-- The duplicate check of `POST /api/rooms`: an active room whose name
matches the requested name case-insensitively
(findOne with a case-insensitive anchored regex over active rooms). -/
def activeNameClash (n : JStr) (r : ChatRoom) : Bool :=
  r.isActive && decide (lowerStr r.name = lowerStr n)

/-- `POST /api/rooms`: validation, the case-insensitive active-name
check, then the insert.  The document is stored with the trimmed name;
the collection carries a case-sensitive unique index on `name`, so a
save whose trimmed name equals any existing room name (active or not)
fails with a duplicate-key error which the catch block turns into a
generic 500 response.  `newRoom` is the document the route builds. -/
def newRoom (st : Store) (uid : Nat) (n : JStr) (descr : Option JStr)
    (isPriv : Bool) (now : Nat) : ChatRoom :=
  { roomId := st.nextId, name := jsTrim n,
    description := match descr with | some d => jsTrim d | none => [],
    isPrivate := isPriv, createdBy := uid, members := [uid],
    isActive := true, lastActivity := now }

/-- The body of `POST /api/rooms` once validation passed: the
case-insensitive active-name conflict check, the unique-index check on
the trimmed name, then the insert. -/
def createRoomChecked (st : Store) (uid : Nat) (n : JStr) (descr : Option JStr)
    (isPriv : Bool) (now : Nat) : CreateRoomOutcome × Store :=
  if st.rooms.any (activeNameClash n) then
    (CreateRoomOutcome.err 409 "A room with this name already exists", st)
  else if st.rooms.any (fun r => decide (r.name = jsTrim n)) then
    (CreateRoomOutcome.err 500 "Failed to create chat room", st)
  else
    (CreateRoomOutcome.created (newRoom st uid n descr isPriv now),
     { st with
       rooms := st.rooms ++ [newRoom st uid n descr isPriv now],
       nextId := st.nextId + 1 })

def createRoom (st : Store) (uid : Nat) (name : Option JStr) (descr : Option JStr)
    (isPriv : Bool) (now : Nat) : CreateRoomOutcome × Store :=
  match validateRoomName name with
  | some e => (CreateRoomOutcome.err 400 e, st)
  | none =>
    match validateRoomDescription descr with
    | some e => (CreateRoomOutcome.err 400 e, st)
    | none => createRoomChecked st uid (name.getD []) descr isPriv now

/-! ### Concrete stores used by the end-to-end scenarios -/

/-- A fresh user record with the given id and name, as the registration
code would create it (current room defaults to general). -/
def uRec (i : Nat) (nm : JStr) : UserRec :=
  { userId := i, username := nm, room := gen, socketId := none,
    isOnline := false, lastSeen := 0, joinedAt := 0 }

/-- The room of the end-to-end invitation scenario: user 1 is the sole
member. -/
def designRoom : ChatRoom :=
  { roomId := 10, name := "design".toList, description := [],
    isPrivate := false, createdBy := 1, members := [1],
    isActive := true, lastActivity := 0 }

/-- Initial store of the end-to-end invitation scenario. -/
def st0 : Store :=
  { users := [uRec 1 "u1".toList, uRec 2 "u2".toList, uRec 3 "u3".toList,
              uRec 4 "u4".toList],
    rooms := [designRoom], messages := [], invitations := [], nextId := 100 }

/-- The invite code drawn for the scenario. -/
def cE2E : JStr := "c0de".toList

/-- The issue request of the scenario: a code invitation with
usageLimit 2 and expiresInHours 24. -/
def reqE2E : CreateInvReq :=
  { roomId := 10, itype := InvType.codeKind, invitedUsername := none,
    invitedEmail := none, message := [], expiresInHours := 24,
    usageLimit := 2, code := cE2E }

/-- Store after user 1 issues the invitation. -/
def stI : Store := (createInvitation st0 1 reqE2E 0).2

/-- Store after user 2 redeems it. -/
def stR1 : Store := (acceptInvitation stI cE2E 2 5).2

/-- Store after user 3 redeems it (the limit is now reached). -/
def stR2 : Store := (acceptInvitation stR1 cE2E 3 6).2

/-! ### Invitation lifecycle invariant -/

/-- Arithmetic well-formedness of a single invitation document:
`usedCount ≤ usageLimit`, the clamped limit is at least 1, and a still
pending invitation has spare usage (the accept route flips the status to
accepted the moment the count reaches the limit). -/
def InvWF (i : Invitation) : Prop :=
  i.usedCount ≤ i.usageLimit ∧ 1 ≤ i.usageLimit ∧
    (i.status = InvStatus.pending → i.usedCount < i.usageLimit)

instance (i : Invitation) : Decidable (InvWF i) := by
  unfold InvWF; infer_instance

/-- Store-wide invariant for the invitation collection: every document
is well formed, ids are below the fresh-id counter, and both the `_id`
and the `inviteCode` unique indexes hold. -/
def StoreInv (st : Store) : Prop :=
  (∀ i ∈ st.invitations, InvWF i ∧ i.invId < st.nextId) ∧
  (st.invitations.map (fun i => i.invId)).Nodup ∧
  (st.invitations.map (fun i => i.inviteCode)).Nodup

instance (st : Store) : Decidable (StoreInv st) := by
  unfold StoreInv; infer_instance

/-- If no stored invitation passes the `findOne` filter, the accept
route answers with the generic 404 and leaves the store untouched. -/
theorem accept_no_redeemable (st : Store) (code : JStr) (uid now : Nat)
    (h : ∀ i ∈ st.invitations, redeemable code now i = false) :
    acceptInvitation st code uid now =
      (AcceptOutcome.err 404 "Invalid or expired invitation", st) := by
  unfold acceptInvitation
  have hf : st.invitations.find? (redeemable code now) = none := by
    rw [List.find?_eq_none]
    intro x hx
    simp [h x hx]
  rw [hf]

/-- **C1, counterexample.**  In the end-to-end scenario (usageLimit 2,
redeemed by users 2 and 3), the third redeemer, user 4, receives the
generic 404 not-found response — byte-identical to the response for a
code that never existed — and not the 410 limit-reached response. -/
theorem c1_counterexample :
    (acceptInvitation stI cE2E 2 5).1 = AcceptOutcome.ok 10 "design".toList ∧
    (acceptInvitation stR1 cE2E 3 6).1 = AcceptOutcome.ok 10 "design".toList ∧
    (acceptInvitation stR2 cE2E 4 7).1 =
      AcceptOutcome.err 404 "Invalid or expired invitation" ∧
    (acceptInvitation stR2 "zzzz".toList 4 7).1 =
      AcceptOutcome.err 404 "Invalid or expired invitation" ∧
    (acceptInvitation stR2 cE2E 4 7).1 ≠
      AcceptOutcome.err 410 "Invitation has reached its usage limit" := by
  decide

/-- **C1, amended.**  Once every invitation carrying a code has
`usedCount ≥ usageLimit`, a subsequent redeem of that code fails with
the generic 404 not-found response (the invitation is no longer
`pending`), never with the 410 limit-reached response: the two errors
are not distinguished for a used-up code. -/
theorem redeem_after_limit_is_not_found (st : Store) (code : JStr) (uid now : Nat)
    (hInv : StoreInv st)
    (hlim : ∀ i ∈ st.invitations, i.inviteCode = code → i.usageLimit ≤ i.usedCount) :
    acceptInvitation st code uid now =
      (AcceptOutcome.err 404 "Invalid or expired invitation", st) ∧
    ∀ m, acceptInvitation st code uid now ≠ (AcceptOutcome.err 410 m, st) := by
  have hpred : ∀ i ∈ st.invitations, redeemable code now i = false := by
    intro i hi
    by_cases hc : i.inviteCode = code
    · have hw := (hInv.1 i hi).1
      have hl := hlim i hi hc
      have hnp : ¬ i.status = InvStatus.pending := by
        intro hp
        have := hw.2.2 hp
        omega
      simp [redeemable, hnp]
    · simp [redeemable, hc]
  have h404 := accept_no_redeemable st code uid now hpred
  refine ⟨h404, ?_⟩
  intro m hEq
  rw [h404] at hEq
  simp at hEq

/-- Witness for the amended C1 theorem at the end-to-end scenario. -/
theorem redeem_after_limit_is_not_found_witness :
    acceptInvitation stR2 cE2E 4 7 =
      (AcceptOutcome.err 404 "Invalid or expired invitation", stR2) ∧
    ∀ m, acceptInvitation stR2 cE2E 4 7 ≠ (AcceptOutcome.err 410 m, stR2) :=
  redeem_after_limit_is_not_found stR2 cE2E 4 7 (by decide) (by decide)

/-- A pending invitation that expired at time 10 (scenario C2). -/
def invExp : Invitation :=
  { invId := 50, roomId := 10, invitedBy := 1, invitedUser := none,
    invitedEmail := none, inviteCode := "expd".toList,
    itype := InvType.codeKind, status := InvStatus.pending,
    expiresAt := 10, usageLimit := 5, usedCount := 0, message := [] }

/-- Store holding only the expired invitation of scenario C2. -/
def stExp : Store :=
  { users := st0.users, rooms := [designRoom], messages := [],
    invitations := [invExp], nextId := 100 }

/-- **C2, counterexample.**  Redeeming a time-expired invitation at
time 20 yields the generic 404 not-found response — byte-identical to
the response for a code that never existed, so no distinct ExpiredError
exists — though room membership is indeed left unchanged. -/
theorem c2_counterexample :
    acceptInvitation stExp "expd".toList 2 20 =
      (AcceptOutcome.err 404 "Invalid or expired invitation", stExp) ∧
    (acceptInvitation stExp "none".toList 2 20).1 =
      (acceptInvitation stExp "expd".toList 2 20).1 ∧
    (acceptInvitation stExp "expd".toList 2 20).2.rooms = stExp.rooms := by
  decide

/-- **C2, amended.**  When every invitation carrying a code has
`expiresAt ≤ now`, redeeming that code fails with the same generic 404
not-found response that an unknown code produces (no distinct
ExpiredError), and the whole store — in particular every room and its
membership — is unchanged. -/
theorem redeem_expired_is_not_found (st : Store) (code : JStr) (uid now : Nat)
    (hexp : ∀ i ∈ st.invitations, i.inviteCode = code → i.expiresAt ≤ now) :
    acceptInvitation st code uid now =
      (AcceptOutcome.err 404 "Invalid or expired invitation", st) ∧
    (acceptInvitation st code uid now).2.rooms = st.rooms := by
  have hpred : ∀ i ∈ st.invitations, redeemable code now i = false := by
    intro i hi
    by_cases hc : i.inviteCode = code
    · have hle := hexp i hi hc
      have : ¬ now < i.expiresAt := by omega
      simp [redeemable, this]
    · simp [redeemable, hc]
  have h404 := accept_no_redeemable st code uid now hpred
  exact ⟨h404, by rw [h404]⟩

/-- Witness for the amended C2 theorem at the expired-invitation
scenario. -/
theorem redeem_expired_is_not_found_witness :
    acceptInvitation stExp "expd".toList 2 20 =
      (AcceptOutcome.err 404 "Invalid or expired invitation", stExp) ∧
    (acceptInvitation stExp "expd".toList 2 20).2.rooms = stExp.rooms :=
  redeem_expired_is_not_found stExp "expd".toList 2 20 (by decide)

/-! ### Sequences of invitation operations (claim C3) -/

/-- One invitation-lifecycle operation: issue, redeem or revoke. -/
inductive InvOp
  | issue (uid : Nat) (req : CreateInvReq) (now : Nat)
  | redeem (code : JStr) (uid now : Nat)
  | revokeOp (invitationId uid : Nat)
deriving DecidableEq, Repr

/-- Effect of a single invitation operation on the store. -/
def runInvOp (st : Store) : InvOp → Store
  | InvOp.issue uid req now => (createInvitation st uid req now).2
  | InvOp.redeem code uid now => (acceptInvitation st code uid now).2
  | InvOp.revokeOp iid uid => (revokeInvitation st iid uid).2

/-- Effect of a sequence of invitation operations on the store. -/
def runInvOps (st : Store) (ops : List InvOp) : Store := ops.foldl runInvOp st

/-- Mapping the invitation collection with a function that preserves the
two indexed fields preserves both unique indexes. -/
theorem inv_map_nodup (l : List Invitation) (g : Invitation → Invitation)
    (hid : ∀ i ∈ l, (g i).invId = i.invId)
    (hcode : ∀ i ∈ l, (g i).inviteCode = i.inviteCode)
    (h1 : (l.map (fun i => i.invId)).Nodup)
    (h2 : (l.map (fun i => i.inviteCode)).Nodup) :
    ((l.map g).map (fun i => i.invId)).Nodup ∧
    ((l.map g).map (fun i => i.inviteCode)).Nodup := by
  rw [List.map_map, List.map_map]
  constructor
  · have he : l.map (fun i => (g i).invId) = l.map (fun i => i.invId) :=
      List.map_congr_left hid
    rw [show ((fun i : Invitation => i.invId) ∘ g) = fun i => (g i).invId from rfl, he]
    exact h1
  · have he : l.map (fun i => (g i).inviteCode) = l.map (fun i => i.inviteCode) :=
      List.map_congr_left hcode
    rw [show ((fun i : Invitation => i.inviteCode) ∘ g) = fun i => (g i).inviteCode from rfl, he]
    exact h2

/-- `saveInvitation` preserves the store invariant whenever the new
document is well formed and carries the fresh id. -/
theorem storeInv_save (st : Store) (inv : Invitation)
    (hwf : InvWF inv) (hid : inv.invId = st.nextId) (h : StoreInv st) :
    StoreInv (saveInvitation st inv).2 := by
  unfold saveInvitation
  obtain ⟨hall, hnid, hncode⟩ := h
  by_cases hdup : (st.invitations.any fun i => decide (i.inviteCode = inv.inviteCode)) = true
  · rw [if_pos hdup]
    exact ⟨hall, hnid, hncode⟩
  · rw [if_neg hdup]
    simp only [List.any_eq_true, not_exists, not_and, decide_eq_true_eq] at hdup
    show StoreInv { st with invitations := st.invitations ++ [inv], nextId := st.nextId + 1 }
    refine ⟨?_, ?_, ?_⟩
    · intro i hi
      rcases List.mem_append.mp hi with hmem | hmem
      · have h1 := hall i hmem
        refine ⟨h1.1, ?_⟩
        show i.invId < st.nextId + 1
        omega
      · have hieq : i = inv := by simpa using hmem
        subst hieq
        refine ⟨hwf, ?_⟩
        show i.invId < st.nextId + 1
        omega
    · show ((st.invitations ++ [inv]).map (fun i => i.invId)).Nodup
      rw [List.map_append, List.nodup_append]
      refine ⟨hnid, List.nodup_singleton _, ?_⟩
      intro x hx hx1
      simp only [List.map_cons, List.map_nil, List.mem_singleton] at hx1
      subst hx1
      rcases List.mem_map.mp hx with ⟨j, hj, hje⟩
      have hj2 := (hall j hj).2
      omega
    · show ((st.invitations ++ [inv]).map (fun i => i.inviteCode)).Nodup
      rw [List.map_append, List.nodup_append]
      refine ⟨hncode, List.nodup_singleton _, ?_⟩
      intro x hx hx1
      simp only [List.map_cons, List.map_nil, List.mem_singleton] at hx1
      subst hx1
      rcases List.mem_map.mp hx with ⟨j, hj, hje⟩
      exact hdup j hj hje


/-- The document built by the create route is always well formed: the
clamp puts the usage limit in `[1,100]` and the fresh count is 0. -/
theorem newInvitation_wf (st : Store) (uid : Nat) (req : CreateInvReq) (now : Nat)
    (target : Option Nat) : InvWF (newInvitation st uid req now target) := by
  have h1 : (1 : Int) ≤ max 1 (min req.usageLimit 100) := le_max_left _ _
  have h2 : 1 ≤ (max 1 (min req.usageLimit 100)).toNat :=
    Int.toNat_le_toNat h1
  exact ⟨Nat.zero_le _, h2, fun _ => h2⟩

/-- The create route either leaves the store untouched (an error
response) or performs exactly one `saveInvitation` of a freshly built
document. -/
theorem create_store_cases (st : Store) (uid : Nat) (req : CreateInvReq) (now : Nat) :
    (createInvitation st uid req now).2 = st ∨
    ∃ tgt, (createInvitation st uid req now).2 =
      (saveInvitation st (newInvitation st uid req now tgt)).2 := by
  unfold createInvitation createInvitationChecked
  repeat' split
  all_goals first
    | (left; rfl)
    | (right; exact ⟨_, rfl⟩)

/-- `createInvitation` preserves the store invariant. -/
theorem storeInv_create (st : Store) (uid : Nat) (req : CreateInvReq) (now : Nat)
    (h : StoreInv st) : StoreInv (createInvitation st uid req now).2 := by
  rcases create_store_cases st uid req now with heq | ⟨tgt, heq⟩
  · rw [heq]; exact h
  · rw [heq]
    exact storeInv_save st _ (newInvitation_wf st uid req now tgt) rfl h

/-- The checks of `acceptFound` either fail, leaving the store
untouched, or all pass and the result is exactly `acceptApply`. -/
theorem acceptFound_cases (st : Store) (inv : Invitation) (uid now : Nat) :
    (acceptOk (acceptFound st inv uid now).1 = false ∧
      (acceptFound st inv uid now).2 = st) ∨
    ∃ room,
      st.rooms.find? (roomWithId inv.roomId) = some room ∧
      inv.usedCount < inv.usageLimit ∧ uid ∉ room.members ∧
      acceptFound st inv uid now =
        (AcceptOutcome.ok room.roomId room.name, acceptApply st inv room uid now) := by
  unfold acceptFound
  split
  · exact Or.inl ⟨rfl, rfl⟩
  · split
    · exact Or.inl ⟨rfl, rfl⟩
    · next h2 =>
      split
      · exact Or.inl ⟨rfl, rfl⟩
      · next room hr =>
        split
        · exact Or.inl ⟨rfl, rfl⟩
        · next h3 =>
          exact Or.inr ⟨room, hr, by omega, h3, rfl⟩

/-- The accept route either fails, leaving the store untouched, or its
`findOne` produced a redeemable invitation whose checks all passed and
the result is exactly `acceptApply`. -/
theorem accept_cases (st : Store) (code : JStr) (uid now : Nat) :
    (acceptOk (acceptInvitation st code uid now).1 = false ∧
      (acceptInvitation st code uid now).2 = st) ∨
    ∃ inv room,
      st.invitations.find? (redeemable code now) = some inv ∧
      st.rooms.find? (roomWithId inv.roomId) = some room ∧
      inv.usedCount < inv.usageLimit ∧ uid ∉ room.members ∧
      acceptInvitation st code uid now =
        (AcceptOutcome.ok room.roomId room.name, acceptApply st inv room uid now) := by
  unfold acceptInvitation
  cases hf : st.invitations.find? (redeemable code now) with
  | none => exact Or.inl ⟨rfl, rfl⟩
  | some inv =>
    rcases acceptFound_cases st inv uid now with ⟨ha, hb⟩ | ⟨room, hr, hlt, hmem, heq⟩
    · exact Or.inl ⟨ha, hb⟩
    · exact Or.inr ⟨inv, room, rfl, hr, hlt, hmem, heq⟩

/-- `acceptInvitation` preserves the store invariant. -/
theorem storeInv_accept (st : Store) (code : JStr) (uid now : Nat)
    (h : StoreInv st) : StoreInv (acceptInvitation st code uid now).2 := by
  rcases accept_cases st code uid now with ⟨_, heq⟩ | ⟨inv, room, hf, _, hlt, _, heq⟩
  · rw [heq]; exact h
  · rw [heq]
    show StoreInv (acceptApply st inv room uid now)
    have hmemInv := List.mem_of_find?_eq_some hf
    obtain ⟨hall, hnid, hncode⟩ := h
    have hwInv := (hall inv hmemInv).1
    refine ⟨?_, ?_⟩
    · intro i hi
      show InvWF i ∧ i.invId < st.nextId
      rcases List.mem_map.mp hi with ⟨j, hj, hge⟩
      have hge2 : (if j.invId = inv.invId then redeemedInv inv else j) = i := hge
      clear hge
      by_cases hjid : j.invId = inv.invId
      · rw [if_pos hjid] at hge2
        subst hge2
        refine ⟨⟨?_, hwInv.2.1, ?_⟩, ?_⟩
        · show inv.usedCount + 1 ≤ inv.usageLimit
          omega
        · intro hp
          show inv.usedCount + 1 < inv.usageLimit
          by_cases hle : inv.usageLimit ≤ inv.usedCount + 1
          · exfalso
            have hacc : (redeemedInv inv).status = InvStatus.accepted := by
              unfold redeemedInv
              simp [hle]
            rw [hp] at hacc
            exact absurd hacc (by decide)
          · omega
        · show (redeemedInv inv).invId < st.nextId
          exact (hall inv hmemInv).2
      · rw [if_neg hjid] at hge2
        subst hge2
        exact ⟨(hall j hj).1, (hall j hj).2⟩
    · exact inv_map_nodup st.invitations
        (fun i => if i.invId = inv.invId then redeemedInv inv else i)
        (fun i hi => by
          show (if i.invId = inv.invId then redeemedInv inv else i).invId = i.invId
          by_cases hjid : i.invId = inv.invId
          · rw [if_pos hjid]
            show inv.invId = i.invId
            omega
          · rw [if_neg hjid])
        (fun i hi => by
          show (if i.invId = inv.invId then redeemedInv inv else i).inviteCode = i.inviteCode
          by_cases hjid : i.invId = inv.invId
          · rw [if_pos hjid]
            show inv.inviteCode = i.inviteCode
            have hji : i = inv := List.inj_on_of_nodup_map hnid hi hmemInv hjid
            rw [hji]
          · rw [if_neg hjid])
        hnid hncode

/-- `revokeInvitation` preserves the store invariant. -/
theorem storeInv_revoke (st : Store) (invitationId uid : Nat)
    (h : StoreInv st) : StoreInv (revokeInvitation st invitationId uid).2 := by
  unfold revokeInvitation
  cases hf : st.invitations.find? (fun i => decide (i.invId = invitationId)) with
  | none => exact h
  | some inv =>
    show StoreInv
      (if inv.invitedBy ≠ uid then
        (RevokeOutcome.err 403 "You can only revoke your own invitations", st)
      else
        (RevokeOutcome.ok,
         { st with
           invitations := st.invitations.map
             (fun i => if i.invId = inv.invId then { i with status := InvStatus.expired }
                       else i) })).2
    by_cases hb : inv.invitedBy ≠ uid
    · rw [if_pos hb]; exact h
    · rw [if_neg hb]
      obtain ⟨hall, hnid, hncode⟩ := h
      refine ⟨?_, ?_⟩
      · intro i hi
        show InvWF i ∧ i.invId < st.nextId
        rcases List.mem_map.mp hi with ⟨j, hj, hge⟩
        have hge2 : (if j.invId = inv.invId then { j with status := InvStatus.expired } else j) = i := hge
        clear hge
        by_cases hjid : j.invId = inv.invId
        · rw [if_pos hjid] at hge2
          subst hge2
          refine ⟨⟨(hall j hj).1.1, (hall j hj).1.2.1, ?_⟩, (hall j hj).2⟩
          intro hp
          exact InvStatus.noConfusion
            (show InvStatus.expired = InvStatus.pending from hp)
        · rw [if_neg hjid] at hge2
          subst hge2
          exact ⟨(hall j hj).1, (hall j hj).2⟩
      · exact inv_map_nodup st.invitations
          (fun i => if i.invId = inv.invId then { i with status := InvStatus.expired } else i)
          (fun i hi => by
            show (if i.invId = inv.invId then { i with status := InvStatus.expired } else i).invId = i.invId
            by_cases hjid : i.invId = inv.invId
            · rw [if_pos hjid]
            · rw [if_neg hjid])
          (fun i hi => by
            show (if i.invId = inv.invId then { i with status := InvStatus.expired } else i).inviteCode = i.inviteCode
            by_cases hjid : i.invId = inv.invId
            · rw [if_pos hjid]
            · rw [if_neg hjid])
          hnid hncode

/-- Every single invitation operation preserves the store invariant. -/
theorem storeInv_runInvOp (st : Store) (op : InvOp) (h : StoreInv st) :
    StoreInv (runInvOp st op) := by
  cases op with
  | issue uid req now => exact storeInv_create st uid req now h
  | redeem code uid now => exact storeInv_accept st code uid now h
  | revokeOp iid uid => exact storeInv_revoke st iid uid h

/-- Every sequence of invitation operations preserves the store
invariant. -/
theorem storeInv_runInvOps (st : Store) (ops : List InvOp) (h : StoreInv st) :
    StoreInv (runInvOps st ops) := by
  induction ops generalizing st with
  | nil => exact h
  | cons op rest ih => exact ih _ (storeInv_runInvOp st op h)

/-- In an invariant store, a code whose invitation has used up its
limit is never redeemable again: its status is no longer pending, so
the accept route cannot even find it. -/
theorem accept_at_limit_blocked (st : Store) (h : StoreInv st)
    (i : Invitation) (hi : i ∈ st.invitations)
    (hlim : i.usageLimit ≤ i.usedCount) (uid now : Nat) :
    acceptOk (acceptInvitation st i.inviteCode uid now).1 = false := by
  have hpred : ∀ j ∈ st.invitations, redeemable i.inviteCode now j = false := by
    intro j hj
    by_cases hc : j.inviteCode = i.inviteCode
    · have hji : j = i := List.inj_on_of_nodup_map h.2.2 hj hi hc
      subst hji
      have hw := (h.1 j hj).1
      have hnp : ¬ j.status = InvStatus.pending := by
        intro hp
        have := hw.2.2 hp
        omega
      simp [redeemable, hnp]
    · simp [redeemable, hc]
  rw [accept_no_redeemable st i.inviteCode uid now hpred]
  rfl

/-- In an invariant store, when a successful redemption brings an
invitation of the redeemed code to `usedCount = usageLimit`, its stored
status is `accepted`. -/
theorem accept_flips_at_limit (st : Store) (code : JStr) (uid now : Nat)
    (h : StoreInv st)
    (hok : acceptOk (acceptInvitation st code uid now).1 = true) :
    ∀ i2 ∈ (acceptInvitation st code uid now).2.invitations,
      i2.inviteCode = code → i2.usedCount = i2.usageLimit →
        i2.status = InvStatus.accepted := by
  rcases accept_cases st code uid now with ⟨hko, _⟩ | ⟨inv, room, hf, _, hlt, _, heq⟩
  · rw [hko] at hok; cases hok
  · have hmemInv := List.mem_of_find?_eq_some hf
    have hred := List.find?_some hf
    have hic : inv.inviteCode = code := by
      unfold redeemable at hred
      simp only [Bool.and_eq_true, decide_eq_true_eq] at hred
      exact hred.1.1
    intro i2 hi2 hc2 hcnt
    rw [heq] at hi2
    have hi2m : i2 ∈ (acceptApply st inv room uid now).invitations := hi2
    unfold acceptApply at hi2m
    rcases List.mem_map.mp hi2m with ⟨j, hj, hge⟩
    have hge2 : (if j.invId = inv.invId then redeemedInv inv else j) = i2 := hge
    clear hge
    by_cases hjid : j.invId = inv.invId
    · rw [if_pos hjid] at hge2
      subst hge2
      have hcnt2 : inv.usedCount + 1 = inv.usageLimit := hcnt
      show (redeemedInv inv).status = InvStatus.accepted
      unfold redeemedInv
      simp only []
      rw [if_pos (by omega)]
    · rw [if_neg hjid] at hge2
      subst hge2
      exfalso
      have hji : j = inv := List.inj_on_of_nodup_map h.2.2 hj hmemInv (by rw [hc2, hic])
      exact hjid (by rw [hji])

/-- **C3.**  Along every sequence of issue/redeem/revoke operations
starting from an invariant store, `usedCount ≤ usageLimit` holds for
every invitation; an invitation whose count has reached its limit can
never be redeemed again; and whenever a redemption raises a count to
its limit, the stored status of the redeemed code is `accepted`. -/
theorem invitation_usage_lifecycle (st : Store) (hInv : StoreInv st)
    (ops : List InvOp) :
    (∀ i ∈ (runInvOps st ops).invitations, i.usedCount ≤ i.usageLimit) ∧
    (∀ i ∈ (runInvOps st ops).invitations, i.usageLimit ≤ i.usedCount →
      ∀ uid now,
        acceptOk (acceptInvitation (runInvOps st ops) i.inviteCode uid now).1 = false) ∧
    (∀ code uid now,
      acceptOk (acceptInvitation (runInvOps st ops) code uid now).1 = true →
      ∀ i2 ∈ (acceptInvitation (runInvOps st ops) code uid now).2.invitations,
        i2.inviteCode = code → i2.usedCount = i2.usageLimit →
          i2.status = InvStatus.accepted) := by
  have h2 := storeInv_runInvOps st ops hInv
  refine ⟨?_, ?_, ?_⟩
  · intro i hi
    exact ((h2.1 i hi).1).1
  · intro i hi hl uid now
    exact accept_at_limit_blocked _ h2 i hi hl uid now
  · intro code uid now hok
    exact accept_flips_at_limit _ code uid now h2 hok

/-- The operation sequence of the end-to-end scenario: issue with
usageLimit 2, then two successful redemptions. -/
def opsE2E : List InvOp :=
  [InvOp.issue 1 reqE2E 0, InvOp.redeem cE2E 2 5, InvOp.redeem cE2E 3 6]

/-- Witness for C3 at the end-to-end scenario. -/
theorem invitation_usage_lifecycle_witness :
    (∀ i ∈ (runInvOps st0 opsE2E).invitations, i.usedCount ≤ i.usageLimit) ∧
    (∀ i ∈ (runInvOps st0 opsE2E).invitations, i.usageLimit ≤ i.usedCount →
      ∀ uid now,
        acceptOk (acceptInvitation (runInvOps st0 opsE2E) i.inviteCode uid now).1 = false) ∧
    (∀ code uid now,
      acceptOk (acceptInvitation (runInvOps st0 opsE2E) code uid now).1 = true →
      ∀ i2 ∈ (acceptInvitation (runInvOps st0 opsE2E) code uid now).2.invitations,
        i2.inviteCode = code → i2.usedCount = i2.usageLimit →
          i2.status = InvStatus.accepted) :=
  invitation_usage_lifecycle st0 (by decide) opsE2E

/-! ### Claim C9: issue-parameter handling -/

/-- The issue request with an out-of-range expiry (200 hours). -/
def reqH200 : CreateInvReq :=
  { reqE2E with expiresInHours := 200, code := "h200".toList }

/-- The issue request with an out-of-range usage limit (500). -/
def reqU500 : CreateInvReq :=
  { reqE2E with usageLimit := 500, code := "u500".toList }

/-- The issue request with a negative usage limit. -/
def reqUneg : CreateInvReq :=
  { reqE2E with usageLimit := -5, code := "uneg".toList }

/-- **C9, counterexample.**  An issue request with
`expiresInHours = 200` is rejected with a 400 validation error and
stores nothing — the value is not clamped into `[1,168]` and issue does
not succeed — whereas out-of-range `usageLimit` values (500 and −5) are
indeed clamped (to 100 and 1). -/
theorem c9_counterexample :
    createInvitation st0 1 reqH200 0 =
      (CreateInvOutcome.err 400 "Expiration must be between 1 hour and 1 week", st0) ∧
    outcomeUsageLimit (createInvitation st0 1 reqU500 0).1 = some 100 ∧
    outcomeUsageLimit (createInvitation st0 1 reqUneg 0).1 = some 1 := by
  decide

/-- The clamp on the stored usage limit lands in `[1,100]`. -/
theorem newInvitation_usage_bounds (st : Store) (uid : Nat) (req : CreateInvReq)
    (now : Nat) (tgt : Option Nat) :
    1 ≤ (newInvitation st uid req now tgt).usageLimit ∧
    (newInvitation st uid req now tgt).usageLimit ≤ 100 := by
  refine ⟨(newInvitation_wf st uid req now tgt).2.1, ?_⟩
  show (max 1 (min req.usageLimit 100)).toNat ≤ 100
  have h1 : max 1 (min req.usageLimit 100) ≤ (100 : Int) :=
    max_le (by norm_num) (min_le_right _ _)
  exact Int.toNat_le_toNat h1

/-- Every successfully created invitation is a `newInvitation`. -/
theorem create_created_shape (st : Store) (uid : Nat) (req : CreateInvReq)
    (now : Nat) (inv : Invitation)
    (h : (createInvitation st uid req now).1 = CreateInvOutcome.created inv) :
    ∃ tgt, inv = newInvitation st uid req now tgt := by
  unfold createInvitation createInvitationChecked saveInvitation at h
  repeat' split at h
  all_goals cases h <;> exact ⟨_, rfl⟩

/-- **C9, amended.**  For an issuer who is a member of the (active)
target room: an `expiresInHours` outside `[1,168]` makes issue fail
with the 400 validation error (it is rejected, not clamped), while the
`usageLimit` of every stored invitation is clamped into `[1,100]`, so
issue succeeds for out-of-range `usageLimit` values. -/
theorem issue_clamps_usage_rejects_expiry (st : Store) (uid : Nat)
    (req : CreateInvReq) (now : Nat) (room : ChatRoom)
    (hroom : st.rooms.find? (activeRoomWithId req.roomId) = some room)
    (hmem : uid ∈ room.members) :
    ((req.expiresInHours < 1 ∨ 168 < req.expiresInHours) →
      createInvitation st uid req now =
        (CreateInvOutcome.err 400 "Expiration must be between 1 hour and 1 week", st)) ∧
    (∀ inv, (createInvitation st uid req now).1 = CreateInvOutcome.created inv →
      1 ≤ inv.usageLimit ∧ inv.usageLimit ≤ 100) := by
  have hred : createInvitation st uid req now =
      createInvitationChecked st uid req now room := by
    unfold createInvitation
    rw [hroom]
  constructor
  · intro h400
    rw [hred]
    unfold createInvitationChecked
    rw [if_neg (not_not_intro hmem), if_pos h400]
  · intro inv hc
    rcases create_created_shape st uid req now inv hc with ⟨tgt, htgt⟩
    rw [htgt]
    exact newInvitation_usage_bounds st uid req now tgt

/-- Witness for the amended C9 at the concrete scenario requests. -/
theorem issue_clamps_usage_rejects_expiry_witness :
    ((reqH200.expiresInHours < 1 ∨ 168 < reqH200.expiresInHours) →
      createInvitation st0 1 reqH200 0 =
        (CreateInvOutcome.err 400 "Expiration must be between 1 hour and 1 week", st0)) ∧
    (∀ inv, (createInvitation st0 1 reqH200 0).1 = CreateInvOutcome.created inv →
      1 ≤ inv.usageLimit ∧ inv.usageLimit ≤ 100) :=
  issue_clamps_usage_rejects_expiry st0 1 reqH200 0 designRoom (by decide) (by decide)

/-! ### Claim C10: room-name uniqueness at creation -/

/-- A deactivated room named design (scenario C10). -/
def deadRoom : ChatRoom :=
  { roomId := 1, name := "design".toList, description := [],
    isPrivate := false, createdBy := 1, members := [], isActive := false,
    lastActivity := 0 }

/-- Store holding only the deactivated room. -/
def stDead : Store :=
  { users := [], rooms := [deadRoom], messages := [], invitations := [],
    nextId := 2 }

/-- An active room named Design (scenario C10, case variant). -/
def actRoom : ChatRoom :=
  { roomId := 1, name := "Design".toList, description := [],
    isPrivate := false, createdBy := 1, members := [1], isActive := true,
    lastActivity := 0 }

/-- Store holding only the active room. -/
def stAct : Store :=
  { users := [], rooms := [actRoom], messages := [], invitations := [],
    nextId := 2 }

/-- **C10, counterexample.**  Creating a room with the byte-identical
name of a room that exists only deactivated passes the route conflict
check (which only looks at active rooms) but then dies on the
collection unique index on `name`, returning the generic 500 — so the
name is NOT reused successfully.  A case-variant of the dead name is
created fine, and a case-variant of an active name conflicts with 409. -/
theorem c10_counterexample :
    createRoom stDead 7 (some "design".toList) none false 9 =
      (CreateRoomOutcome.err 500 "Failed to create chat room", stDead) ∧
    (createRoom stDead 7 (some "DESIGN".toList) none false 9).1 =
      CreateRoomOutcome.created
        { roomId := 2, name := "DESIGN".toList, description := [],
          isPrivate := false, createdBy := 7, members := [7],
          isActive := true, lastActivity := 9 } ∧
    (createRoom stAct 7 (some "design".toList) none false 9).1 =
      CreateRoomOutcome.err 409 "A room with this name already exists" := by
  decide

/-- **C10, amended.**  For a validated create request: a conflict (409)
is returned exactly on a case-insensitive name match with an *active*
room; when the name matches only deactivated rooms, the reuse fails
with the generic 500 from the case-sensitive unique index if the
trimmed name is byte-identical to a stored name, and succeeds (the new
room document is stored) only when no stored room has the identical
name. -/
theorem room_name_uniqueness (st : Store) (uid : Nat) (n : JStr)
    (descr : Option JStr) (p : Bool) (now : Nat)
    (hname : validateRoomName (some n) = none)
    (hdescr : validateRoomDescription descr = none) :
    ((∃ r ∈ st.rooms, r.isActive = true ∧ lowerStr r.name = lowerStr n) →
      createRoom st uid (some n) descr p now =
        (CreateRoomOutcome.err 409 "A room with this name already exists", st)) ∧
    ((∀ r ∈ st.rooms, ¬(r.isActive = true ∧ lowerStr r.name = lowerStr n)) →
      (∃ r ∈ st.rooms, r.name = jsTrim n) →
      createRoom st uid (some n) descr p now =
        (CreateRoomOutcome.err 500 "Failed to create chat room", st)) ∧
    ((∀ r ∈ st.rooms, ¬(r.isActive = true ∧ lowerStr r.name = lowerStr n)) →
      (∀ r ∈ st.rooms, r.name ≠ jsTrim n) →
      createRoom st uid (some n) descr p now =
        (CreateRoomOutcome.created (newRoom st uid n descr p now),
         { st with
           rooms := st.rooms ++ [newRoom st uid n descr p now],
           nextId := st.nextId + 1 })) := by
  have hred : createRoom st uid (some n) descr p now =
      createRoomChecked st uid n descr p now := by
    unfold createRoom
    rw [hname, hdescr]
    rfl
  refine ⟨?_, ?_, ?_⟩
  · intro hcl
    rw [hred]
    unfold createRoomChecked
    rcases hcl with ⟨r, hr, hact, hlow⟩
    rw [if_pos (List.any_eq_true.mpr
      ⟨r, hr, by simp [activeNameClash, hact, hlow]⟩)]
  · intro hno hdup
    rw [hred]
    unfold createRoomChecked
    rw [if_neg ?hcl]
    case hcl =>
      intro hany
      rcases List.any_eq_true.mp hany with ⟨r, hr, hp⟩
      simp only [activeNameClash, Bool.and_eq_true, decide_eq_true_eq] at hp
      exact hno r hr ⟨hp.1, hp.2⟩
    rcases hdup with ⟨r, hr, hname2⟩
    rw [if_pos (List.any_eq_true.mpr ⟨r, hr, by simp [hname2]⟩)]
  · intro hno hnodup
    rw [hred]
    unfold createRoomChecked
    rw [if_neg ?hcl2]
    case hcl2 =>
      intro hany
      rcases List.any_eq_true.mp hany with ⟨r, hr, hp⟩
      simp only [activeNameClash, Bool.and_eq_true, decide_eq_true_eq] at hp
      exact hno r hr ⟨hp.1, hp.2⟩
    rw [if_neg ?hd2]
    case hd2 =>
      intro hany
      rcases List.any_eq_true.mp hany with ⟨r, hr, hp⟩
      simp only [decide_eq_true_eq] at hp
      exact hnodup r hr hp

/-- Witness for the amended C10 at the deactivated-room scenario. -/
theorem room_name_uniqueness_witness :
    createRoom stDead 7 (some "design".toList) none false 9 =
      (CreateRoomOutcome.err 500 "Failed to create chat room", stDead) :=
  (room_name_uniqueness stDead 7 ("design".toList) none false 9
      (by decide) (by decide)).2.1
    (by decide) ⟨deadRoom, by decide, by decide⟩

/-! ### Claims C4 to C8: socket handlers -/

/-- The room record of the default room used in the handler scenarios. -/
def roomGeneral : ChatRoom :=
  { roomId := 0, name := gen, description := [], isPrivate := false,
    createdBy := 1, members := [1], isActive := true, lastActivity := 0 }

/-- Store used by the send/disconnect scenarios. -/
def stSend : Store :=
  { users := [uRec 1 "u1".toList], rooms := [roomGeneral], messages := [],
    invitations := [], nextId := 50 }

/-- A connected session of user 1 currently in the general room. -/
def sessSend : Session :=
  { userId := 1, username := "u1".toList, room := some gen }

/-- A text of 1001 characters. -/
def longText : JStr := List.replicate 1001 'a'

set_option maxRecDepth 100000 in
/-- **C5, counterexample.**  A 1001-character message is accepted: it
is persisted and broadcast unchanged — the handler checks only for
missing/whitespace-only text and has no 1000-character cap. -/
theorem c5_counterexample :
    1000 < longText.length ∧
    (handleSendMessage stSend sessSend (some longText) 5 true).1 =
      [Event.newMessage gen "u1".toList longText 5] ∧
    (handleSendMessage stSend sessSend (some longText) 5 true).2.messages =
      [{ username := "u1".toList, message := longText, timestamp := 5, room := gen }] := by
  decide

/-- **C5, amended.**  The send handler rejects with a validation error
— persisting nothing and broadcasting nothing — exactly when the text
is missing, empty or whitespace-only; any other text (with no upper
length bound) is trimmed, persisted and broadcast. -/
theorem send_validation (st : Store) (sess : Session) (data : Option JStr)
    (now : Nat) :
    (badText data = true ↔
      handleSendMessage st sess data now true =
        ([Event.errorEv "Message content is required"], st)) ∧
    (badText data = false →
      handleSendMessage st sess data now true =
        ([Event.newMessage (sess.room.getD gen) sess.username
            (jsTrim (data.getD [])) now],
         { st with
           messages := st.messages ++
             [{ username := sess.username, message := jsTrim (data.getD []),
                timestamp := now, room := sess.room.getD gen }] })) := by
  by_cases hb : badText data = true
  · refine ⟨⟨fun _ => ?_, fun _ => hb⟩, fun hf => ?_⟩
    · unfold handleSendMessage
      rw [if_pos hb]
    · rw [hf] at hb
      cases hb
  · have hb2 : badText data = false := by
      revert hb
      cases badText data <;> simp
    refine ⟨⟨fun h => ?_, fun heq => ?_⟩, fun _ => ?_⟩
    · rw [h] at hb2
      cases hb2
    · exfalso
      unfold handleSendMessage at heq
      rw [if_neg hb] at heq
      simp at heq
    · unfold handleSendMessage
      rw [if_neg hb]
      rfl

/-- Witness for the amended C5 on a small concrete send. -/
theorem send_validation_witness :
    (badText (some "hi".toList) = true ↔
      handleSendMessage stSend sessSend (some "hi".toList) 5 true =
        ([Event.errorEv "Message content is required"], stSend)) ∧
    (badText (some "hi".toList) = false →
      handleSendMessage stSend sessSend (some "hi".toList) 5 true =
        ([Event.newMessage (sessSend.room.getD gen) sessSend.username
            (jsTrim ((some "hi".toList).getD [])) 5],
         { stSend with
           messages := stSend.messages ++
             [{ username := sessSend.username,
                message := jsTrim ((some "hi".toList).getD []),
                timestamp := 5, room := sessSend.room.getD gen }] })) :=
  send_validation stSend sessSend (some "hi".toList) 5

/-- **C6, counterexample.**  A successful send at time 99 persists the
message but leaves the room collection — in particular the general
room's `lastActivity`, still 0 — completely untouched. -/
theorem c6_counterexample :
    (handleSendMessage stSend sessSend (some "hi".toList) 99 true).2.messages =
      [{ username := "u1".toList, message := "hi".toList, timestamp := 99, room := gen }] ∧
    (handleSendMessage stSend sessSend (some "hi".toList) 99 true).2.rooms =
      stSend.rooms ∧
    roomGeneral.lastActivity = 0 ∧ stSend.rooms = [roomGeneral] := by
  decide

/-- **C6, amended.**  The send handler never touches the room
collection: whatever the input and whether or not the save succeeds,
the rooms (and hence every room's `lastActivityAt`) are unchanged.
The room's `lastActivity` is updated by the HTTP room-join and
invitation-accept operations instead. -/
theorem send_leaves_rooms_unchanged (st : Store) (sess : Session)
    (data : Option JStr) (now : Nat) (dbOk : Bool) :
    (handleSendMessage st sess data now dbOk).2.rooms = st.rooms := by
  unfold handleSendMessage
  repeat' split
  all_goals rfl

/-- **C8, counterexample.**  The disconnect handler does not clear the
session's room association, so running it a second time for the
already-disconnected session emits the `userLeft` broadcast again — a
duplicate "left" broadcast. -/
theorem c8_counterexample :
    Event.userLeft gen "u1".toList ∈ (handleDisconnect stSend sessSend true 1).1 ∧
    Event.userLeft gen "u1".toList ∈
      (handleDisconnect (handleDisconnect stSend sessSend true 1).2.1
        (handleDisconnect stSend sessSend true 1).2.2 true 2).1 := by
  decide

/-- Reduction of the disconnect handler for a session with no room. -/
theorem disconnect_eq_none (st : Store) (sess : Session) (dbOk : Bool)
    (now : Nat) (hr : sess.room = none) :
    handleDisconnect st sess dbOk now = ([], st, sess) := by
  unfold handleDisconnect
  rw [hr]

/-- Reduction of the disconnect handler when the write succeeds. -/
theorem disconnect_eq_some_ok (st : Store) (sess : Session) (r : JStr)
    (now : Nat) (hr : sess.room = some r) :
    handleDisconnect st sess true now =
      ([Event.userLeft r sess.username,
        Event.userListOthers r (userEntries (disconnectUpdate st sess.userId now) r)],
       disconnectUpdate st sess.userId now, sess) := by
  unfold handleDisconnect
  rw [hr]
  rfl

/-- Reduction of the disconnect handler when the write throws: the
catch block logs and nothing else happens. -/
theorem disconnect_eq_some_fail (st : Store) (sess : Session) (r : JStr)
    (now : Nat) (hr : sess.room = some r) :
    handleDisconnect st sess false now = ([], st, sess) := by
  unfold handleDisconnect
  rw [hr]
  rfl

/-- **C8, amended.**  The disconnect handler never emits an error (its
catch block swallows every failure), and a disconnect for a session
that never joined a room is a complete no-op; but the handler does not
clear the session's room association, so a repeated invocation for an
already-disconnected session emits the `userLeft` broadcast again
(disconnect is not idempotent in its broadcasts). -/
theorem disconnect_behavior (st : Store) (sess : Session) (dbOk : Bool)
    (now : Nat) :
    (∀ m, Event.errorEv m ∉ (handleDisconnect st sess dbOk now).1) ∧
    (sess.room = none → handleDisconnect st sess dbOk now = ([], st, sess)) ∧
    ((handleDisconnect st sess dbOk now).2.2 = sess) ∧
    (∀ r, sess.room = some r →
      Event.userLeft r sess.username ∈ (handleDisconnect st sess true now).1) := by
  refine ⟨?_, ?_, ?_, ?_⟩
  · intro m
    cases hr : sess.room with
    | none =>
      rw [disconnect_eq_none st sess dbOk now hr]
      simp
    | some r =>
      cases dbOk with
      | true =>
        rw [disconnect_eq_some_ok st sess r now hr]
        simp
      | false =>
        rw [disconnect_eq_some_fail st sess r now hr]
        simp
  · intro hr
    exact disconnect_eq_none st sess dbOk now hr
  · cases hr : sess.room with
    | none =>
      rw [disconnect_eq_none st sess dbOk now hr]
    | some r =>
      cases dbOk with
      | true =>
        rw [disconnect_eq_some_ok st sess r now hr]
      | false =>
        rw [disconnect_eq_some_fail st sess r now hr]
  · intro r hr
    rw [disconnect_eq_some_ok st sess r now hr]
    simp

/-- Witness for the amended C8 on the concrete scenario session. -/
theorem disconnect_behavior_witness :
    Event.userLeft gen sessSend.username ∈
      (handleDisconnect stSend sessSend true 3).1 :=
  (disconnect_behavior stSend sessSend true 3).2.2.2 gen rfl

/-! ### Claim C7: history replay and member list on join -/

/-- **C7, amended.**  On every successful join, the session receives
the `previousMessages` event whose payload has at most 20 (hence at
most 50) messages, all of them persisted messages of the joined room,
in chronological (ascending-timestamp) order obtained by sorting
newest-first, limiting, and reversing; and a `userList` event whose
entries carry each member's username and join date — but no online
flag (the query selects only `username joinedAt`). -/
theorem join_replay (st : Store) (sess : Session) (sid : Nat)
    (roomReq : Option JStr) (now : Nat) :
    Event.previousMessages
        (recentMessages (joinUpdate st sess.userId sid (roomReq.getD gen) now)
          (roomReq.getD gen))
      ∈ (handleJoin st sess sid roomReq true now).1 ∧
    Event.userListAll (roomReq.getD gen)
        (userEntries (joinUpdate st sess.userId sid (roomReq.getD gen) now)
          (roomReq.getD gen))
      ∈ (handleJoin st sess sid roomReq true now).1 ∧
    (recentMessages (joinUpdate st sess.userId sid (roomReq.getD gen) now)
        (roomReq.getD gen)).length ≤ 50 ∧
    List.Pairwise (fun a b => a.timestamp ≤ b.timestamp)
      (recentMessages (joinUpdate st sess.userId sid (roomReq.getD gen) now)
        (roomReq.getD gen)) ∧
    (∀ m ∈ recentMessages (joinUpdate st sess.userId sid (roomReq.getD gen) now)
        (roomReq.getD gen),
      m ∈ st.messages ∧ m.room = roomReq.getD gen) ∧
    (∀ e ∈ userEntries (joinUpdate st sess.userId sid (roomReq.getD gen) now)
        (roomReq.getD gen),
      ∃ u, u ∈ (joinUpdate st sess.userId sid (roomReq.getD gen) now).users ∧
        u.room = roomReq.getD gen ∧ e = (u.username, u.joinedAt)) := by
  refine ⟨?_, ?_, ?_, ?_, ?_, ?_⟩
  · unfold handleJoin
    simp [List.mem_append]
  · unfold handleJoin
    simp [List.mem_append]
  · unfold recentMessages
    rw [List.length_reverse]
    have := List.length_take_le 20
      (((joinUpdate st sess.userId sid (roomReq.getD gen) now).messages.filter
        (fun m => decide (m.room = roomReq.getD gen))).insertionSort tsGe)
    omega
  · unfold recentMessages
    rw [List.pairwise_reverse]
    exact List.Pairwise.sublist (List.take_sublist _ _)
      (List.sorted_insertionSort tsGe _)
  · intro m hm
    unfold recentMessages at hm
    rw [List.mem_reverse] at hm
    have hm2 := (List.take_sublist _ _).subset hm
    have hm3 := (List.perm_insertionSort tsGe _).subset hm2
    have hm4 := List.mem_filter.mp hm3
    exact ⟨hm4.1, of_decide_eq_true hm4.2⟩
  · intro e he
    unfold userEntries at he
    rcases List.mem_map.mp he with ⟨u, hu, hue⟩
    have hu2 := List.mem_filter.mp hu
    exact ⟨u, hu2.1, of_decide_eq_true hu2.2, hue.symm⟩

/-- Witness for the amended C7 at a concrete join into the design
room. -/
theorem join_replay_witness :
    Event.previousMessages
        (recentMessages (joinUpdate stSend sessSend.userId 5 ((some ("design".toList)).getD gen) 9)
          ((some ("design".toList)).getD gen))
      ∈ (handleJoin stSend sessSend 5 (some ("design".toList)) true 9).1 ∧
    Event.userListAll ((some ("design".toList)).getD gen)
        (userEntries (joinUpdate stSend sessSend.userId 5 ((some ("design".toList)).getD gen) 9)
          ((some ("design".toList)).getD gen))
      ∈ (handleJoin stSend sessSend 5 (some ("design".toList)) true 9).1 ∧
    (recentMessages (joinUpdate stSend sessSend.userId 5 ((some ("design".toList)).getD gen) 9)
        ((some ("design".toList)).getD gen)).length ≤ 50 ∧
    List.Pairwise (fun a b => a.timestamp ≤ b.timestamp)
      (recentMessages (joinUpdate stSend sessSend.userId 5 ((some ("design".toList)).getD gen) 9)
        ((some ("design".toList)).getD gen)) ∧
    (∀ m ∈ recentMessages (joinUpdate stSend sessSend.userId 5 ((some ("design".toList)).getD gen) 9)
        ((some ("design".toList)).getD gen),
      m ∈ stSend.messages ∧ m.room = (some ("design".toList)).getD gen) ∧
    (∀ e ∈ userEntries (joinUpdate stSend sessSend.userId 5 ((some ("design".toList)).getD gen) 9)
        ((some ("design".toList)).getD gen),
      ∃ u, u ∈ (joinUpdate stSend sessSend.userId 5 ((some ("design".toList)).getD gen) 9).users ∧
        u.room = (some ("design".toList)).getD gen ∧ e = (u.username, u.joinedAt)) :=
  join_replay stSend sessSend 5 (some ("design".toList)) 9

/-- The online member of the C7 counterexample scenario. -/
def memberOn : UserRec :=
  { userId := 2, username := "u2".toList, room := "design".toList,
    socketId := none, isOnline := true, lastSeen := 0, joinedAt := 3 }

/-- The same member, offline. -/
def memberOff : UserRec := { memberOn with isOnline := false }

/-- Store in which member 2 of the design room is online. -/
def stOn : Store :=
  { users := [uRec 1 "u1".toList, memberOn], rooms := [], messages := [],
    invitations := [], nextId := 9 }

/-- Store in which member 2 of the design room is offline. -/
def stOff : Store :=
  { users := [uRec 1 "u1".toList, memberOff], rooms := [], messages := [],
    invitations := [], nextId := 9 }

/-- A fresh session of user 1, not yet in any room. -/
def sessJoin : Session :=
  { userId := 1, username := "u1".toList, room := none }

/-- **C7, counterexample.**  Flipping a room member's online flag
changes none of the events a joining session receives: the member list
sent on join (selected as `username joinedAt`) cannot carry an online
flag. -/
theorem c7_counterexample :
    memberOn.isOnline = true ∧ memberOff.isOnline = false ∧ stOn ≠ stOff ∧
    (handleJoin stOn sessJoin 5 (some "design".toList) true 9).1 =
      (handleJoin stOff sessJoin 5 (some "design".toList) true 9).1 := by
  decide

/-! ### Claim C4: atomicity of a room switch as seen in snapshots -/

/-- In any store whose user ids are unique, an existing user appears in
the member-list snapshot of exactly one room (the `room` field is a
single scalar). -/
theorem store_exactly_one_room (st : Store) (uid : Nat)
    (hn : (st.users.map (fun u => u.userId)).Nodup)
    (hu : uid ∈ st.users.map (fun u => u.userId)) :
    (∃ r, inRoomList st r uid) ∧
    ∀ r1 r2, inRoomList st r1 uid → inRoomList st r2 uid → r1 = r2 := by
  rcases List.mem_map.mp hu with ⟨u, humem, hue⟩
  constructor
  · exact ⟨u.room, u, humem, hue, rfl⟩
  · rintro r1 r2 ⟨u1, h1m, h1id, h1r⟩ ⟨u2, h2m, h2id, h2r⟩
    have h12 : u1 = u2 :=
      List.inj_on_of_nodup_map hn h1m h2m (by rw [h1id, h2id])
    rw [← h1r, ← h2r, h12]

/-- The single database write of the join handler does not create,
delete or re-identify user records. -/
theorem joinUpdate_ids (st : Store) (uid sid : Nat) (room : JStr) (now : Nat) :
    (joinUpdate st uid sid room now).users.map (fun u => u.userId) =
      st.users.map (fun u => u.userId) := by
  unfold joinUpdate
  rw [List.map_map]
  apply List.map_congr_left
  intro u _
  by_cases h : u.userId = uid <;> simp [h]

/-- Every database state reachable during a join carries the same user
ids as the starting state. -/
theorem joinStates_ids (st : Store) (sess : Session) (sid : Nat)
    (roomReq : Option JStr) (dbOk : Bool) (now : Nat) :
    ∀ s ∈ joinStates st sess sid roomReq dbOk now,
      s.users.map (fun u => u.userId) = st.users.map (fun u => u.userId) := by
  intro s hs
  unfold joinStates at hs
  rcases List.mem_cons.mp hs with hq | hq
  · rw [hq]
  · have hq2 : s = (handleJoin st sess sid roomReq dbOk now).2.1 := by
      simpa using hq
    · rw [hq2]
      cases dbOk with
      | true =>
        show (joinUpdate st sess.userId sid (roomReq.getD gen) now).users.map
            (fun u => u.userId) = st.users.map (fun u => u.userId)
        exact joinUpdate_ids st sess.userId sid (roomReq.getD gen) now
      | false => rfl

/-- **C4.**  For every join or room switch (the join handler covers
both), every database state an observer can read — before the single
`findByIdAndUpdate` write, after it, and after a failed write — shows
an existing user in the member-list snapshot of exactly one room:
never in two rooms at once and never in no room, because membership is
derived from the single scalar `room` field of the user record. -/
theorem join_atomic_membership (st : Store) (sess : Session) (sid : Nat)
    (roomReq : Option JStr) (dbOk : Bool) (now : Nat) (uid : Nat)
    (hn : (st.users.map (fun u => u.userId)).Nodup)
    (hu : uid ∈ st.users.map (fun u => u.userId)) :
    ∀ s ∈ joinStates st sess sid roomReq dbOk now,
      (∃ r, inRoomList s r uid) ∧
      ∀ r1 r2, inRoomList s r1 uid → inRoomList s r2 uid → r1 = r2 := by
  intro s hs
  have hids := joinStates_ids st sess sid roomReq dbOk now s hs
  exact store_exactly_one_room s uid (by rw [hids]; exact hn)
    (by rw [hids]; exact hu)

/-- Witness for C4: the post-write state of a concrete switch from the
general room to the design room. -/
theorem join_atomic_membership_witness :
    (∃ r, inRoomList (handleJoin stSend sessSend 5 (some "design".toList) true 9).2.1 r 1) ∧
    ∀ r1 r2,
      inRoomList (handleJoin stSend sessSend 5 (some "design".toList) true 9).2.1 r1 1 →
      inRoomList (handleJoin stSend sessSend 5 (some "design".toList) true 9).2.1 r2 1 →
        r1 = r2 :=
  join_atomic_membership stSend sessSend 5 (some "design".toList) true 9 1
    (by decide) (by decide)
    (handleJoin stSend sessSend 5 (some "design".toList) true 9).2.1
    (by simp [joinStates])

end ChatSpec
